import Mathlib

/-!
Verification of the Jaeger trace-context propagator
(`packages/opentelemetry-propagator-jaeger/src/JaegerPropagator.ts`).

Strings are modelled as Lean `String` (sequences of Unicode scalar values).
The JavaScript primitives used by the source — `encodeURIComponent`,
`decodeURIComponent`, `String.prototype.split`, `String.prototype.padStart`,
`parseInt`, and the two regular-expression tests — are given explicit
executable models.  `decodeURIComponent` throws `URIError` on malformed
percent-escapes; the throw is modelled by `Option` (`none` = throw), and the
operations that call it return `Except Unit _` (`Except.error ()` = a
propagated exception).
-/

namespace Jaeger

/-- Hexadecimal digit test, `[0-9a-fA-F]`: the hex-digit requirement of the
ECMA-262 `Decode` algorithm for `%`-escapes. -/
def isHexDigit (c : Char) : Bool :=
  decide (('0' ≤ c ∧ c ≤ '9') ∨ ('a' ≤ c ∧ c ≤ 'f') ∨ ('A' ≤ c ∧ c ≤ 'F'))

/-- Numeric value of a hexadecimal digit. -/
def hexVal (c : Char) : Nat :=
  if c ≤ '9' then c.toNat - 48 else if c ≤ 'F' then c.toNat - 55 else c.toNat - 87

/-- Upper-case hexadecimal digit, as emitted by `encodeURIComponent`. -/
def hexDigitUpper (n : Nat) : Char :=
  if n < 10 then Char.ofNat (48 + n) else Char.ofNat (55 + n)

/-- Lower-case hexadecimal digit, as emitted by `Number.prototype.toString(16)`. -/
def hexDigitLower (n : Nat) : Char :=
  if n < 10 then Char.ofNat (48 + n) else Char.ofNat (87 + n)

/-- UTF-8 continuation-byte test (`10xxxxxx`). -/
def isContByte (b : Nat) : Bool := decide (0x80 ≤ b ∧ b < 0xC0)

/-- Strict UTF-8 decoding of one escape-byte group, as required by the
ECMA-262 `Decode` algorithm: rejects overlong forms, surrogate code points
and values above `0x10FFFF`. -/
def utf8CodePoint : List Nat → Option Nat
  | [b] => if b < 0x80 then some b else none
  | [b, b1] =>
    if 0xC2 ≤ b ∧ b < 0xE0 ∧ isContByte b1 = true then
      some ((b - 0xC0) * 0x40 + (b1 - 0x80))
    else none
  | [b, b1, b2] =>
    if (0xE0 ≤ b ∧ b < 0xF0 ∧ isContByte b1 = true ∧ isContByte b2 = true) ∧
        0x800 ≤ (b - 0xE0) * 0x1000 + (b1 - 0x80) * 0x40 + (b2 - 0x80) ∧
        ¬(0xD800 ≤ (b - 0xE0) * 0x1000 + (b1 - 0x80) * 0x40 + (b2 - 0x80) ∧
          (b - 0xE0) * 0x1000 + (b1 - 0x80) * 0x40 + (b2 - 0x80) ≤ 0xDFFF) then
      some ((b - 0xE0) * 0x1000 + (b1 - 0x80) * 0x40 + (b2 - 0x80))
    else none
  | [b, b1, b2, b3] =>
    if (0xF0 ≤ b ∧ b < 0xF8 ∧ isContByte b1 = true ∧ isContByte b2 = true ∧
        isContByte b3 = true) ∧
        0x10000 ≤ (b - 0xF0) * 0x40000 + (b1 - 0x80) * 0x1000 + (b2 - 0x80) * 0x40 +
          (b3 - 0x80) ∧
        (b - 0xF0) * 0x40000 + (b1 - 0x80) * 0x1000 + (b2 - 0x80) * 0x40 + (b3 - 0x80) ≤
          0x10FFFF then
      some ((b - 0xF0) * 0x40000 + (b1 - 0x80) * 0x1000 + (b2 - 0x80) * 0x40 + (b3 - 0x80))
    else none
  | _ => none

/-- First pass of the ECMA-262 `Decode` abstract operation with an empty
reserved set — the semantics of `decodeURIComponent`: scan the characters,
turning each `%`-escape into its byte (`Sum.inr`) and keeping every other
character (`Sum.inl`); `none` models the `URIError` thrown for a `%` not
followed by two hexadecimal digits. -/
def uriTokens : List Char → Option (List (Char ⊕ Nat))
  | [] => some []
  | c :: rest =>
    if c = '%' then
      match rest with
      | c1 :: c2 :: rest2 =>
        if isHexDigit c1 = true ∧ isHexDigit c2 = true then
          (uriTokens rest2).map (.inr (hexVal c1 * 16 + hexVal c2) :: ·)
        else none
      | _ => none
    else (uriTokens rest).map (.inl c :: ·)

/-- Continue after one escape group: append the decoded code point, or fail
when the byte group was invalid UTF-8. -/
def escCont : Option Nat → Option (List Char) → Option (List Char)
  | some cp, r => r.map (Char.ofNat cp :: ·)
  | none, _ => none

/-- Second pass of `Decode`, as a token-at-a-time state machine: `need` is the
number of escaped continuation bytes the current UTF-8 group still requires
and `acc` the bytes of that group so far (`0`, `[]` outside a group).  An
escaped byte below `0x80` stands alone; an escaped lead byte opens a group of
its UTF-8 length; the group's bytes must all be escapes and form a valid
UTF-8 sequence (`utf8CodePoint`); a raw character, the end of the input, or a
bad byte inside a group throws (`none`); a raw character outside a group
passes through unchanged.  `Decode` performs tokenisation and grouping in a
single left-to-right scan; every throw collapses to `none` and the passes
consume escapes at the same positions, so `uriTokens` then `uriGroup`
computes exactly the scan's result. -/
def uriGroupSt : Nat → List Nat → List (Char ⊕ Nat) → Option (List Char)
  | 0, [], [] => some []
  | 0, [], .inl c :: ts => (uriGroupSt 0 [] ts).map (c :: ·)
  | 0, [], .inr b :: ts =>
    if b < 0x80 then (uriGroupSt 0 [] ts).map (Char.ofNat b :: ·)
    else if b < 0xC0 then none
    else if b < 0xE0 then uriGroupSt 1 [b] ts
    else if b < 0xF0 then uriGroupSt 2 [b] ts
    else if b < 0xF8 then uriGroupSt 3 [b] ts
    else none
  | 0, _ :: _, _ => none
  | 1, acc, .inr b :: ts => escCont (utf8CodePoint (acc ++ [b])) (uriGroupSt 0 [] ts)
  | Nat.succ (Nat.succ need), acc, .inr b :: ts => uriGroupSt (Nat.succ need) (acc ++ [b]) ts
  | Nat.succ _, _, [] => none
  | Nat.succ _, _, .inl _ :: _ => none

def uriGroup (ts : List (Char ⊕ Nat)) : Option (List Char) := uriGroupSt 0 [] ts

/-- JavaScript `decodeURIComponent`; `none` models a thrown `URIError`. -/
def decodeURIComponentJS (s : String) : Option String :=
  ((uriTokens s.data).bind uriGroup).map String.mk

/-- Unreserved characters of `encodeURIComponent`, kept verbatim:
`A-Z a-z 0-9 - _ . ! ~ *` the apostrophe `( )`. -/
def isUnreservedURI (c : Char) : Bool :=
  decide (('A' ≤ c ∧ c ≤ 'Z') ∨ ('a' ≤ c ∧ c ≤ 'z') ∨ ('0' ≤ c ∧ c ≤ '9') ∨
    c = '-' ∨ c = '_' ∨ c = '.' ∨ c = '!' ∨ c = '~' ∨ c = '*' ∨ c = Char.ofNat 39 ∨
    c = '(' ∨ c = ')')

/-- UTF-8 encoding of one Unicode scalar value. -/
def utf8EncodeChar (cp : Nat) : List Nat :=
  if cp < 0x80 then [cp]
  else if cp < 0x800 then [0xC0 + cp / 0x40, 0x80 + cp % 0x40]
  else if cp < 0x10000 then
    [0xE0 + cp / 0x1000, 0x80 + cp / 0x40 % 0x40, 0x80 + cp % 0x40]
  else
    [0xF0 + cp / 0x40000, 0x80 + cp / 0x1000 % 0x40, 0x80 + cp / 0x40 % 0x40,
      0x80 + cp % 0x40]

/-- A byte as a `%`-escape with upper-case hex digits. -/
def byteToEscape (b : Nat) : List Char :=
  ['%', hexDigitUpper (b / 16), hexDigitUpper (b % 16)]

/-- How `encodeURIComponent` renders one character. -/
def encodeChar (c : Char) : List Char :=
  if isUnreservedURI c then [c] else (utf8EncodeChar c.toNat).flatMap byteToEscape

/-- JavaScript `encodeURIComponent` (total on sequences of scalar values). -/
def encodeURIComponentJS (s : String) : String :=
  String.mk (s.data.flatMap encodeChar)

/-- JavaScript `String.prototype.split(":")` over a character list: the group
before the first `:` and the remaining groups. -/
def splitColonAux : List Char → List Char × List (List Char)
  | [] => ([], [])
  | c :: rest =>
    let r := splitColonAux rest
    if c = ':' then ([], r.1 :: r.2) else (c :: r.1, r.2)

def splitColonList (cs : List Char) : List (List Char) :=
  (splitColonAux cs).1 :: (splitColonAux cs).2

/-- JavaScript `s.split(":")` (`"".split(":")` is `[""]`). -/
def splitColonStr (s : String) : List String :=
  (splitColonList s.data).map String.mk

/-- JavaScript `String.prototype.padStart(n, c)` with a one-character pad
string: unchanged when already at least `n` long. -/
def padStart (s : String) (n : Nat) (c : Char) : String :=
  if n ≤ s.length then s else String.mk (List.replicate (n - s.length) c ++ s.data)

/-- The test `/^[0-9a-f]{2}$/i.test flags`: exactly two hexadecimal digits
(both anchors present, `i` adds `A-F`). -/
def matchTwoHexFlags (flags : String) : Bool :=
  match flags.data with
  | [c1, c2] => isHexDigit c1 && isHexDigit c2
  | _ => false

/-- Decimal digit test. -/
def isDecDigit (c : Char) : Bool := decide ('0' ≤ c ∧ c ≤ '9')

/-- JavaScript `parseInt(s)` with its default decimal radix, on the strings
that can reach it here (after the two-hex-digit guard no leading whitespace,
sign or `0x` prefix can occur): the maximal leading run of decimal digits
read in base 10, `none` for `NaN`. -/
def jsParseIntDec (s : String) : Option Nat :=
  match s.data.takeWhile isDecDigit with
  | [] => none
  | ds => some (ds.foldl (fun a c => a * 10 + (c.toNat - 48)) 0)

/-- JavaScript `x & 1` on a `parseInt` result: `ToInt32 NaN = 0`, so
`NaN & 1 = 0`; on a non-negative number it is the low bit. -/
def jsAnd1 : Option Nat → Nat
  | none => 0
  | some n => n % 2

/-- The `SpanContext` fields this propagator reads and writes (it never
touches `traceState`). -/
structure SpanContext where
  traceId : String
  spanId : String
  isRemote : Bool
  traceFlags : Nat
deriving DecidableEq

/-- Lines 141-146 of `deserializeSpanContext`: destructure the
`:`-separated fields and build the span context, `none` when the field
count differs from 4 (line 137). -/
def spanContextOfParts : List String → Option SpanContext
  | [t, spanId, _p, flags] =>
    some { traceId := padStart t 32 '0', spanId := spanId, isRemote := true,
           traceFlags := if matchTwoHexFlags flags then jsAnd1 (jsParseIntDec flags) else 1 }
  | _ => none

/-- `deserializeSpanContext` (JaegerPropagator.ts:135-147).  The call
`decodeURIComponent(serializedString)` on line 136 throws `URIError` on
malformed percent-escapes; the throw is `Except.error ()`. -/
def deserializeSpanContext (serializedString : String) : Except Unit (Option SpanContext) :=
  match decodeURIComponentJS serializedString with
  | none => .error ()
  | some decoded => .ok (spanContextOfParts (splitColonStr decoded))

/-- JavaScript `Number.prototype.toString(16)` on a natural number, digits by
repeated division; structural recursion on a fuel bounding the digit count
(any fuel above the argument works, and `n + 1 > n`). -/
def jsNatToHexAux : Nat → Nat → List Char
  | 0, _ => []
  | fuel + 1, n =>
    if n < 16 then [hexDigitLower n]
    else jsNatToHexAux fuel (n / 16) ++ [hexDigitLower (n % 16)]

def jsNatToHex (n : Nat) : String := String.mk (jsNatToHexAux (n + 1) n)

/-- The trace-header value built by `inject` (JaegerPropagator.ts:65-72):
the template string `{traceId}:{spanId}:0:{traceFlags}` where `traceFlags`
is `0${(spanContext.traceFlags || TraceFlags.NONE).toString(16)}` (on a
natural number `x || 0` is `x`, `0` being the only falsy value). -/
def serializeSpanContext (sc : SpanContext) : String :=
  sc.traceId ++ ":" ++ sc.spanId ++ ":0:" ++ ("0" ++ jsNatToHex sc.traceFlags)

/-- Baggage as the `@opentelemetry/api` implementation holds it: an
insertion-ordered map from keys to entry values (this codec never produces
entry metadata). -/
structure Baggage where
  entries : List (String × String)
deriving DecidableEq

/-- `Baggage.setEntry` over a JavaScript `Map`: an existing key is updated
in place, keeping its position; a new key is appended. -/
def setEntry (b : Baggage) (k v : String) : Baggage :=
  if b.entries.any (fun e => decide (e.1 = k)) then
    ⟨b.entries.map (fun e => if e.1 = k then (k, v) else e)⟩
  else ⟨b.entries ++ [(k, v)]⟩

/-- The three context slots this propagator consults. -/
structure ContextData where
  spanContext : Option SpanContext
  baggage : Option Baggage
  suppressed : Bool
deriving DecidableEq

/-- A context value together with its object identity: `Context.setValue`
(hence `setSpanContext` and `setBaggage`) always allocates a fresh context
object, modelled by bumping `ref`, so "the identical context reference"
is plain equality. -/
structure Context where
  ref : Nat
  data : ContextData
deriving DecidableEq

def getSpanContext (ctx : Context) : Option SpanContext := ctx.data.spanContext

def getBaggage (ctx : Context) : Option Baggage := ctx.data.baggage

def isTracingSuppressed (ctx : Context) : Bool := ctx.data.suppressed

def setSpanContext (ctx : Context) (sc : SpanContext) : Context :=
  ⟨ctx.ref + 1, { ctx.data with spanContext := some sc }⟩

def setBaggage (ctx : Context) (b : Baggage) : Context :=
  ⟨ctx.ref + 1, { ctx.data with baggage := some b }⟩

def UBER_TRACE_ID_HEADER : String := "uber-trace-id"

/-- The baggage headers written by the loop at JaegerPropagator.ts:76-84:
one `uberctx-{key}` header per entry, its value
`encodeURIComponent(entry.value)`. -/
def baggageHeadersOf : Option Baggage → List (String × String)
  | some b => b.entries.map (fun e => ("uberctx-" ++ e.1, encodeURIComponentJS e.2))
  | none => []

/-- `JaegerPropagator.inject` (JaegerPropagator.ts:61-85), observed as the
sequence of `setter.set(carrier, name, value)` calls it performs; `hdr` is
the configured `_jaegerTraceHeader`. -/
def inject (hdr : String) (ctx : Context) : List (String × String) :=
  (match getSpanContext ctx with
   | some sc =>
     if isTracingSuppressed ctx = false then [(hdr, serializeSpanContext sc)] else []
   | none => []) ++ baggageHeadersOf (getBaggage ctx)

/-- What `getter.get` may return: a string, an array of strings, or (as
`none`) `undefined`. -/
inductive HeaderValue where
  | str : String → HeaderValue
  | arr : List String → HeaderValue
deriving DecidableEq

/-- The extract-side carrier capabilities: `getter.keys` and `getter.get`. -/
structure Carrier where
  keys : List String
  get : String → Option HeaderValue

/-- `Array.isArray(v) ? v[0] : v` combined with the later
`typeof v === "string"` / `v === undefined` tests: the result is `some`
exactly for a string value (`v[0]` of an empty array is `undefined`). -/
def headOrSelf : Option HeaderValue → Option String
  | some (.str s) => some s
  | some (.arr l) => l.head?
  | none => none

/-- ASCII lower-casing.  The canonicalisation of a case-insensitive
regular expression without the `u` flag never maps a non-ASCII character
to an ASCII one, so matching the ASCII pattern `uberctx-` case-insensitively
is matching after ASCII lower-casing. -/
def asciiToLower (c : Char) : Char :=
  if 'A' ≤ c ∧ c ≤ 'Z' then Char.ofNat (c.toNat + 32) else c

/-- The ECMAScript line terminators (LF, CR, LINE SEPARATOR, PARAGRAPH
SEPARATOR), which `.` in a regular expression without the `s` flag does
not match. -/
def isLineTerm (c : Char) : Bool :=
  decide (c.toNat = 10 ∨ c.toNat = 13 ∨ c.toNat = 0x2028 ∨ c.toNat = 0x2029)

/-- `UBER_BAGGAGE_HEADER_REGEX.test key` for `/^uberctx-(.+)/i`: a
case-insensitive `uberctx-` head followed by at least one character, and
`.` requires that character (the one at index 8) to not be a line
terminator.  Later characters are unconstrained: `(.+)` need not reach the
end of the string, and the code takes the baggage key with
`key.substring(8)`, not from the capture group. -/
def testBaggageRegex (key : String) : Bool :=
  decide (8 < key.length ∧
    (key.data.take 8).map asciiToLower = ['u', 'b', 'e', 'r', 'c', 't', 'x', '-'] ∧
    ∀ c ∈ (key.data.drop 8).take 1, isLineTerm c = false)

/-- `key.substring(UBER_BAGGAGE_HEADER_PREFIX.length + 1)`: the baggage key
after the 8-character header head. -/
def baggageKeyOf (key : String) : String := String.mk (key.data.drop 8)

/-- The baggage loop of `extract` (JaegerPropagator.ts:114-120): entries
whose value is `undefined` are skipped, every other value is
percent-decoded — which may throw, `Except.error ()` — and written with
`setEntry`. -/
def mergeBaggage (cur : Baggage) : List (String × Option String) → Except Unit Baggage
  | [] => .ok cur
  | (k, v) :: rest =>
    match v with
    | none => mergeBaggage cur rest
    | some s =>
      match decodeURIComponentJS s with
      | none => .error ()
      | some dv => mergeBaggage (setEntry cur k dv) rest

/-- `JaegerPropagator.extract` (JaegerPropagator.ts:87-124); `hdr` is the
configured `_jaegerTraceHeader`.  The two local constants of the source
(`uberTraceId`, `baggageValues`) are inlined; `baggageValues` is the
filter-then-map over `getter.keys(carrier)` of lines 92-101, and the first
`match` is the trace-id step of lines 103-110 (where `deserializeSpanContext`
may throw, propagated as `Except.error`). -/
def extract (hdr : String) (ctx : Context) (carrier : Carrier) : Except Unit Context :=
  match (match headOrSelf (carrier.get hdr) with
         | some s =>
           match deserializeSpanContext s with
           | Except.error e => Except.error e
           | Except.ok (some sc) => Except.ok (setSpanContext ctx sc)
           | Except.ok none => Except.ok ctx
         | none => (Except.ok ctx : Except Unit Context)) with
  | .error e => .error e
  | .ok newContext =>
    if ((carrier.keys.filter testBaggageRegex).map
        (fun key => (baggageKeyOf key, headOrSelf (carrier.get key)))).length = 0 then
      .ok newContext
    else
      match mergeBaggage ((getBaggage ctx).getD ⟨[]⟩)
          ((carrier.keys.filter testBaggageRegex).map
            (fun key => (baggageKeyOf key, headOrSelf (carrier.get key)))) with
      | .error e => .error e
      | .ok cur => .ok (setBaggage newContext cur)

/-- A carrier built from a list of `setter.set` calls with pairwise distinct
names (as `inject` produces in the round-trip statements), read back as an
HTTP-header record: key list in call order, lookup by exact name. -/
def carrierOfList (hs : List (String × String)) : Carrier :=
  ⟨hs.map Prod.fst, fun k => (hs.find? (fun h => decide (h.1 = k))).map (fun h => .str h.2)⟩

/-! ### Facts about the modelled JavaScript string primitives -/

theorem string_mk_data (s : String) : String.mk s.data = s := rfl

theorem string_data_inj {a b : String} (h : a.data = b.data) : a = b := by
  cases a
  cases b
  exact congrArg String.mk h

theorem hexDigitUpper_spec : ∀ n, n < 16 →
    isHexDigit (hexDigitUpper n) = true ∧ hexVal (hexDigitUpper n) = n := by decide

theorem isUnreservedURI_ne_pct {c : Char} (h : isUnreservedURI c = true) : c ≠ '%' := by
  intro hc
  subst hc
  exact absurd h (by decide)

theorem uriTokens_cons_ne {c : Char} (h : c ≠ '%') (rest : List Char) :
    uriTokens (c :: rest) = (uriTokens rest).map (.inl c :: ·) := by
  rw [uriTokens.eq_def]
  simp only [if_neg h]

theorem uriTokens_pct {c1 c2 : Char} (h1 : isHexDigit c1 = true)
    (h2 : isHexDigit c2 = true) (rest2 : List Char) :
    uriTokens ('%' :: c1 :: c2 :: rest2) =
      (uriTokens rest2).map (.inr (hexVal c1 * 16 + hexVal c2) :: ·) := by
  show (if isHexDigit c1 = true ∧ isHexDigit c2 = true then
    (uriTokens rest2).map (.inr (hexVal c1 * 16 + hexVal c2) :: ·) else none) = _
  rw [if_pos ⟨h1, h2⟩]

theorem uriTokens_byteEscape {b : Nat} (hb : b < 256) (rest : List Char) :
    uriTokens (byteToEscape b ++ rest) = (uriTokens rest).map (.inr b :: ·) := by
  obtain ⟨h1, e1⟩ := hexDigitUpper_spec (b / 16) (by omega)
  obtain ⟨h2, e2⟩ := hexDigitUpper_spec (b % 16) (by omega)
  simp only [byteToEscape, List.cons_append, List.nil_append]
  rw [uriTokens_pct h1 h2, e1, e2]
  have hb' : b / 16 * 16 + b % 16 = b := by omega
  rw [hb']

theorem uriTokens_no_pct : ∀ cs : List Char, (∀ c ∈ cs, c ≠ '%') →
    uriTokens cs = some (cs.map Sum.inl)
  | [], _ => rfl
  | c :: rest, h => by
    rw [uriTokens_cons_ne (h c (by simp)) rest,
      uriTokens_no_pct rest (fun x hx => h x (by simp [hx]))]
    rfl

theorem uriGroup_all_inl : ∀ cs : List Char, uriGroup (cs.map Sum.inl) = some cs
  | [] => rfl
  | c :: rest => by
    show (uriGroup (rest.map Sum.inl)).map (c :: ·) = _
    rw [uriGroup_all_inl rest]
    rfl

theorem decodeURIComponentJS_no_pct {s : String} (h : ∀ c ∈ s.data, c ≠ '%') :
    decodeURIComponentJS s = some s := by
  unfold decodeURIComponentJS
  rw [uriTokens_no_pct s.data h]
  show (uriGroup (s.data.map Sum.inl)).map String.mk = some s
  rw [uriGroup_all_inl s.data]
  rfl

/-- The escaped-byte case of `uriGroup`, spelled out. -/
theorem uriGroup_inr_eq (b : Nat) (ts : List (Char ⊕ Nat)) :
    uriGroup (.inr b :: ts) =
      (if b < 0x80 then (uriGroup ts).map (Char.ofNat b :: ·)
       else if b < 0xC0 then none
       else if b < 0xE0 then uriGroupSt 1 [b] ts
       else if b < 0xF0 then uriGroupSt 2 [b] ts
       else if b < 0xF8 then uriGroupSt 3 [b] ts
       else none) := rfl

theorem utf8CodePoint_two {b b1 : Nat}
    (h : 0xC2 ≤ b ∧ b < 0xE0 ∧ isContByte b1 = true) :
    utf8CodePoint [b, b1] = some ((b - 0xC0) * 0x40 + (b1 - 0x80)) := by
  simp only [utf8CodePoint]
  rw [if_pos h]

theorem utf8CodePoint_three {b b1 b2 : Nat}
    (h : (0xE0 ≤ b ∧ b < 0xF0 ∧ isContByte b1 = true ∧ isContByte b2 = true) ∧
      0x800 ≤ (b - 0xE0) * 0x1000 + (b1 - 0x80) * 0x40 + (b2 - 0x80) ∧
      ¬(0xD800 ≤ (b - 0xE0) * 0x1000 + (b1 - 0x80) * 0x40 + (b2 - 0x80) ∧
        (b - 0xE0) * 0x1000 + (b1 - 0x80) * 0x40 + (b2 - 0x80) ≤ 0xDFFF)) :
    utf8CodePoint [b, b1, b2] =
      some ((b - 0xE0) * 0x1000 + (b1 - 0x80) * 0x40 + (b2 - 0x80)) := by
  simp only [utf8CodePoint]
  rw [if_pos h]

theorem utf8CodePoint_four {b b1 b2 b3 : Nat}
    (h : (0xF0 ≤ b ∧ b < 0xF8 ∧ isContByte b1 = true ∧ isContByte b2 = true ∧
        isContByte b3 = true) ∧
      0x10000 ≤ (b - 0xF0) * 0x40000 + (b1 - 0x80) * 0x1000 + (b2 - 0x80) * 0x40 +
        (b3 - 0x80) ∧
      (b - 0xF0) * 0x40000 + (b1 - 0x80) * 0x1000 + (b2 - 0x80) * 0x40 + (b3 - 0x80) ≤
        0x10FFFF) :
    utf8CodePoint [b, b1, b2, b3] =
      some ((b - 0xF0) * 0x40000 + (b1 - 0x80) * 0x1000 + (b2 - 0x80) * 0x40 +
        (b3 - 0x80)) := by
  simp only [utf8CodePoint]
  rw [if_pos h]

theorem uriGroup_byte1 {b : Nat} (hb : b < 0x80) (ts : List (Char ⊕ Nat)) :
    uriGroup (.inr b :: ts) = (uriGroup ts).map (Char.ofNat b :: ·) := by
  rw [uriGroup_inr_eq, if_pos hb]

theorem uriGroup_byte2 {cp : Nat} (hlo : 0x80 ≤ cp) (hhi : cp < 0x800)
    (ts : List (Char ⊕ Nat)) :
    uriGroup (.inr (0xC0 + cp / 0x40) :: .inr (0x80 + cp % 0x40) :: ts) =
      (uriGroup ts).map (Char.ofNat cp :: ·) := by
  rw [uriGroup_inr_eq,
    if_neg (show ¬(0xC0 + cp / 0x40 < 0x80) by omega),
    if_neg (show ¬(0xC0 + cp / 0x40 < 0xC0) by omega),
    if_pos (show 0xC0 + cp / 0x40 < 0xE0 by omega)]
  show escCont (utf8CodePoint [0xC0 + cp / 0x40, 0x80 + cp % 0x40])
    (uriGroupSt 0 [] ts) = _
  rw [utf8CodePoint_two ⟨by omega, by omega,
    by simp only [isContByte, decide_eq_true_eq]; omega⟩]
  have hval : (0xC0 + cp / 0x40 - 0xC0) * 0x40 + (0x80 + cp % 0x40 - 0x80) = cp := by
    omega
  rw [hval]
  rfl

theorem uriGroup_byte3 {cp : Nat} (hlo : 0x800 ≤ cp) (hhi : cp < 0x10000)
    (hs : cp < 0xD800 ∨ 0xDFFF < cp) (ts : List (Char ⊕ Nat)) :
    uriGroup (.inr (0xE0 + cp / 0x1000) :: .inr (0x80 + cp / 0x40 % 0x40) ::
        .inr (0x80 + cp % 0x40) :: ts) =
      (uriGroup ts).map (Char.ofNat cp :: ·) := by
  have hval : (0xE0 + cp / 0x1000 - 0xE0) * 0x1000 +
      (0x80 + cp / 0x40 % 0x40 - 0x80) * 0x40 + (0x80 + cp % 0x40 - 0x80) = cp := by
    omega
  rw [uriGroup_inr_eq,
    if_neg (show ¬(0xE0 + cp / 0x1000 < 0x80) by omega),
    if_neg (show ¬(0xE0 + cp / 0x1000 < 0xC0) by omega),
    if_neg (show ¬(0xE0 + cp / 0x1000 < 0xE0) by omega),
    if_pos (show 0xE0 + cp / 0x1000 < 0xF0 by omega)]
  show escCont (utf8CodePoint [0xE0 + cp / 0x1000, 0x80 + cp / 0x40 % 0x40,
    0x80 + cp % 0x40]) (uriGroupSt 0 [] ts) = _
  rw [utf8CodePoint_three ⟨⟨by omega, by omega,
      by simp only [isContByte, decide_eq_true_eq]; omega,
      by simp only [isContByte, decide_eq_true_eq]; omega⟩,
    by rw [hval]; omega,
    by rw [hval]; rcases hs with hs | hs <;> omega⟩]
  rw [hval]
  rfl

theorem uriGroup_byte4 {cp : Nat} (hlo : 0x10000 ≤ cp) (hhi : cp ≤ 0x10FFFF)
    (ts : List (Char ⊕ Nat)) :
    uriGroup (.inr (0xF0 + cp / 0x40000) :: .inr (0x80 + cp / 0x1000 % 0x40) ::
        .inr (0x80 + cp / 0x40 % 0x40) :: .inr (0x80 + cp % 0x40) :: ts) =
      (uriGroup ts).map (Char.ofNat cp :: ·) := by
  have hval : (0xF0 + cp / 0x40000 - 0xF0) * 0x40000 +
      (0x80 + cp / 0x1000 % 0x40 - 0x80) * 0x1000 +
      (0x80 + cp / 0x40 % 0x40 - 0x80) * 0x40 + (0x80 + cp % 0x40 - 0x80) = cp := by
    omega
  rw [uriGroup_inr_eq,
    if_neg (show ¬(0xF0 + cp / 0x40000 < 0x80) by omega),
    if_neg (show ¬(0xF0 + cp / 0x40000 < 0xC0) by omega),
    if_neg (show ¬(0xF0 + cp / 0x40000 < 0xE0) by omega),
    if_neg (show ¬(0xF0 + cp / 0x40000 < 0xF0) by omega),
    if_pos (show 0xF0 + cp / 0x40000 < 0xF8 by omega)]
  show escCont (utf8CodePoint [0xF0 + cp / 0x40000, 0x80 + cp / 0x1000 % 0x40,
    0x80 + cp / 0x40 % 0x40, 0x80 + cp % 0x40]) (uriGroupSt 0 [] ts) = _
  rw [utf8CodePoint_four ⟨⟨by omega, by omega,
      by simp only [isContByte, decide_eq_true_eq]; omega,
      by simp only [isContByte, decide_eq_true_eq]; omega,
      by simp only [isContByte, decide_eq_true_eq]; omega⟩,
    by rw [hval]; omega, by rw [hval]; omega⟩]
  rw [hval]
  rfl

/-- Validity bounds of a Lean `Char`, in `Nat` form: a Unicode scalar value
(no surrogates, at most `0x10FFFF`). -/
theorem char_valid_nat (c : Char) :
    c.toNat < 0xD800 ∨ (0xDFFF < c.toNat ∧ c.toNat < 0x110000) := by
  have h := c.valid
  unfold UInt32.isValidChar at h
  exact h

theorem utf8EncodeChar_lt {cp : Nat} (h : cp < 0x110000) :
    ∀ b ∈ utf8EncodeChar cp, b < 256 := by
  intro b hb
  unfold utf8EncodeChar at hb
  by_cases h1 : cp < 0x80
  · rw [if_pos h1] at hb
    simp only [List.mem_singleton] at hb
    omega
  · rw [if_neg h1] at hb
    by_cases h2 : cp < 0x800
    · rw [if_pos h2] at hb
      simp only [List.mem_cons, List.not_mem_nil, or_false] at hb
      rcases hb with rfl | rfl <;> omega
    · rw [if_neg h2] at hb
      by_cases h3 : cp < 0x10000
      · rw [if_pos h3] at hb
        simp only [List.mem_cons, List.not_mem_nil, or_false] at hb
        rcases hb with rfl | rfl | rfl <;> omega
      · rw [if_neg h3] at hb
        simp only [List.mem_cons, List.not_mem_nil, or_false] at hb
        rcases hb with rfl | rfl | rfl | rfl <;> omega

/-- The tokens `uriTokens` recovers from the encoding of one character. -/
def tokensOfChar (c : Char) : List (Char ⊕ Nat) :=
  if isUnreservedURI c then [.inl c] else (utf8EncodeChar c.toNat).map Sum.inr

theorem uriTokens_escapes : ∀ (bs : List Nat), (∀ b ∈ bs, b < 256) →
    ∀ rest, uriTokens (bs.flatMap byteToEscape ++ rest) =
      (uriTokens rest).map (bs.map Sum.inr ++ ·)
  | [], _, rest => by
    simp only [List.flatMap_nil, List.nil_append, List.map_nil]
    cases uriTokens rest <;> rfl
  | b :: bs, h, rest => by
    simp only [List.flatMap_cons, List.append_assoc]
    rw [uriTokens_byteEscape (h b (by simp)),
      uriTokens_escapes bs (fun x hx => h x (by simp [hx])) rest]
    cases uriTokens rest <;> rfl

theorem uriTokens_encodeChar (c : Char) (rest : List Char) :
    uriTokens (encodeChar c ++ rest) = (uriTokens rest).map (tokensOfChar c ++ ·) := by
  unfold encodeChar tokensOfChar
  by_cases hu : isUnreservedURI c = true
  · rw [if_pos hu, if_pos hu]
    simp only [List.cons_append, List.nil_append]
    rw [uriTokens_cons_ne (isUnreservedURI_ne_pct hu)]
  · rw [if_neg hu, if_neg hu]
    have hv : c.toNat < 0x110000 := by
      rcases char_valid_nat c with h | h <;> omega
    exact uriTokens_escapes (utf8EncodeChar c.toNat) (utf8EncodeChar_lt hv) rest

theorem uriTokens_flatMap_encode : ∀ cs : List Char,
    uriTokens (cs.flatMap encodeChar) = some (cs.flatMap tokensOfChar)
  | [] => rfl
  | c :: cs => by
    rw [List.flatMap_cons, uriTokens_encodeChar c, uriTokens_flatMap_encode cs,
      List.flatMap_cons]
    rfl

theorem uriGroup_tokensOfChar (c : Char) (ts : List (Char ⊕ Nat)) :
    uriGroup (tokensOfChar c ++ ts) = (uriGroup ts).map (c :: ·) := by
  unfold tokensOfChar
  by_cases hu : isUnreservedURI c = true
  · rw [if_pos hu]
    rfl
  · rw [if_neg hu]
    have hv := char_valid_nat c
    unfold utf8EncodeChar
    by_cases h1 : c.toNat < 0x80
    · rw [if_pos h1]
      show uriGroup (.inr c.toNat :: ts) = _
      rw [uriGroup_byte1 h1, Char.ofNat_toNat]
    · rw [if_neg h1]
      by_cases h2 : c.toNat < 0x800
      · rw [if_pos h2]
        show uriGroup (.inr (0xC0 + c.toNat / 0x40) ::
          .inr (0x80 + c.toNat % 0x40) :: ts) = _
        rw [uriGroup_byte2 (by omega) h2, Char.ofNat_toNat]
      · rw [if_neg h2]
        by_cases h3 : c.toNat < 0x10000
        · rw [if_pos h3]
          show uriGroup (.inr (0xE0 + c.toNat / 0x1000) ::
            .inr (0x80 + c.toNat / 0x40 % 0x40) :: .inr (0x80 + c.toNat % 0x40) :: ts) = _
          rw [uriGroup_byte3 (by omega) h3 (by rcases hv with h | h <;> omega),
            Char.ofNat_toNat]
        · rw [if_neg h3]
          show uriGroup (.inr (0xF0 + c.toNat / 0x40000) ::
            .inr (0x80 + c.toNat / 0x1000 % 0x40) :: .inr (0x80 + c.toNat / 0x40 % 0x40) ::
            .inr (0x80 + c.toNat % 0x40) :: ts) = _
          rw [uriGroup_byte4 (by omega) (by rcases hv with h | h <;> omega),
            Char.ofNat_toNat]

theorem uriGroup_flatMap_tokens : ∀ cs : List Char,
    uriGroup (cs.flatMap tokensOfChar) = some cs
  | [] => rfl
  | c :: cs => by
    rw [List.flatMap_cons, uriGroup_tokensOfChar c, uriGroup_flatMap_tokens cs]
    rfl

/-- Percent-decoding inverts percent-encoding on every string. -/
theorem decode_encode (s : String) :
    decodeURIComponentJS (encodeURIComponentJS s) = some s := by
  show ((uriTokens (s.data.flatMap encodeChar)).bind uriGroup).map String.mk = some s
  rw [uriTokens_flatMap_encode s.data]
  show (uriGroup (s.data.flatMap tokensOfChar)).map String.mk = some s
  rw [uriGroup_flatMap_tokens s.data]
  rfl

/-- Every character of `encodeURIComponent` output is an unreserved
character, a `%`, or a hexadecimal digit. -/
theorem encodeChar_mem (c : Char) (x : Char) (hx : x ∈ encodeChar c) :
    isUnreservedURI x = true ∨ x = '%' ∨ isHexDigit x = true := by
  unfold encodeChar at hx
  by_cases hu : isUnreservedURI c = true
  · rw [if_pos hu] at hx
    simp only [List.mem_singleton] at hx
    subst hx
    exact .inl hu
  · rw [if_neg hu] at hx
    have hv : c.toNat < 0x110000 := by
      rcases char_valid_nat c with h | h <;> omega
    obtain ⟨b, hb, hxb⟩ := List.mem_flatMap.mp hx
    have hblt : b < 256 := utf8EncodeChar_lt hv b hb
    unfold byteToEscape at hxb
    simp only [List.mem_cons, List.not_mem_nil, or_false] at hxb
    rcases hxb with rfl | rfl | rfl
    · exact .inr (.inl rfl)
    · exact .inr (.inr (hexDigitUpper_spec (b / 16) (by omega)).1)
    · exact .inr (.inr (hexDigitUpper_spec (b % 16) (by omega)).1)

/-- `encodeURIComponent` output never contains a colon (so the trace header
value, which does, is visibly not percent-encoded). -/
theorem encodeURIComponentJS_no_colon (s : String) :
    ∀ x ∈ (encodeURIComponentJS s).data, x ≠ ':' := by
  intro x hx
  have hx' : x ∈ s.data.flatMap encodeChar := hx
  obtain ⟨c, _, hc⟩ := List.mem_flatMap.mp hx'
  rcases encodeChar_mem c x hc with h | h | h
  · intro he
    subst he
    exact absurd h (by decide)
  · intro he
    rw [he] at h
    exact absurd h (by decide)
  · intro he
    subst he
    exact absurd h (by decide)

/-! ### The colon split, the flags field, and the hex rendering -/

theorem splitColonAux_cons_ne {c : Char} (h : c ≠ ':') (rest : List Char) :
    splitColonAux (c :: rest) =
      (c :: (splitColonAux rest).1, (splitColonAux rest).2) := by
  simp [splitColonAux, h]

theorem splitColonAux_cons_colon (rest : List Char) :
    splitColonAux (':' :: rest) =
      ([], (splitColonAux rest).1 :: (splitColonAux rest).2) := by
  simp [splitColonAux]

theorem splitColonList_append {a : List Char} (h : ∀ c ∈ a, c ≠ ':') :
    ∀ rest, splitColonList (a ++ ':' :: rest) = a :: splitColonList rest := by
  induction a with
  | nil =>
    intro rest
    simp only [List.nil_append, splitColonList, splitColonAux_cons_colon]
  | cons c a ih =>
    intro rest
    have ih' := ih (fun x hx => h x (by simp [hx])) rest
    simp only [splitColonList] at ih' ⊢
    injection ih' with h1 h2
    simp only [List.cons_append, splitColonAux_cons_ne (h c (by simp)), h1, h2]

theorem splitColonList_no_colon {cs : List Char} (h : ∀ c ∈ cs, c ≠ ':') :
    splitColonList cs = [cs] := by
  induction cs with
  | nil => rfl
  | cons c cs ih =>
    have ih' := ih (fun x hx => h x (by simp [hx]))
    simp only [splitColonList] at ih' ⊢
    injection ih' with h1 h2
    simp only [splitColonAux_cons_ne (h c (by simp)), h1, h2]

theorem spanContextOfParts_four (t sp p f : String) :
    spanContextOfParts [t, sp, p, f] =
      some { traceId := padStart t 32 '0', spanId := sp, isRemote := true,
             traceFlags := if matchTwoHexFlags f then jsAnd1 (jsParseIntDec f) else 1 } :=
  rfl

theorem spanContextOfParts_eq_none_iff : ∀ l : List String,
    spanContextOfParts l = none ↔ l.length ≠ 4
  | [] => by simp [spanContextOfParts]
  | [_] => by simp [spanContextOfParts]
  | [_, _] => by simp [spanContextOfParts]
  | [_, _, _] => by simp [spanContextOfParts]
  | [_, _, _, _] => by simp [spanContextOfParts]
  | _ :: _ :: _ :: _ :: _ :: _ => by
    constructor
    · intro _
      simp only [List.length_cons]
      omega
    · intro _
      rfl

theorem deserialize_decoded {s d : String} (h : decodeURIComponentJS s = some d) :
    deserializeSpanContext s = .ok (spanContextOfParts (splitColonStr d)) := by
  unfold deserializeSpanContext
  rw [h]

theorem deserialize_throw {s : String} (h : decodeURIComponentJS s = none) :
    deserializeSpanContext s = .error () := by
  unfold deserializeSpanContext
  rw [h]

/-- Lower-case hexadecimal digit test (`Number.prototype.toString(16)` output
alphabet). -/
def isLowerHexDigit (c : Char) : Bool :=
  decide (('0' ≤ c ∧ c ≤ '9') ∨ ('a' ≤ c ∧ c ≤ 'f'))

theorem hexDigitLower_isLower : ∀ n, n < 16 →
    isLowerHexDigit (hexDigitLower n) = true := by decide

theorem jsNatToHexAux_lower : ∀ fuel n, n < fuel →
    ∀ c ∈ jsNatToHexAux fuel n, isLowerHexDigit c = true
  | 0, n, h => by omega
  | fuel + 1, n, h => by
    intro c hc
    unfold jsNatToHexAux at hc
    by_cases h16 : n < 16
    · rw [if_pos h16] at hc
      simp only [List.mem_singleton] at hc
      subst hc
      exact hexDigitLower_isLower n h16
    · rw [if_neg h16] at hc
      rw [List.mem_append] at hc
      rcases hc with hc | hc
      · exact jsNatToHexAux_lower fuel (n / 16) (by omega) c hc
      · simp only [List.mem_singleton] at hc
        subst hc
        exact hexDigitLower_isLower (n % 16) (by omega)

theorem jsNatToHex_lower (n : Nat) :
    ∀ c ∈ (jsNatToHex n).data, isLowerHexDigit c = true :=
  jsNatToHexAux_lower (n + 1) n (by omega)

theorem jsNatToHexAux_ne_nil : ∀ fuel n, n < fuel → jsNatToHexAux fuel n ≠ []
  | 0, n, h => by omega
  | fuel + 1, n, _ => by
    unfold jsNatToHexAux
    by_cases h16 : n < 16
    · rw [if_pos h16]
      simp
    · rw [if_neg h16]
      simp

theorem jsNatToHex_len2 {n : Nat} (h : 16 ≤ n) : 2 ≤ (jsNatToHex n).length := by
  show 2 ≤ (jsNatToHexAux (n + 1) n).length
  unfold jsNatToHexAux
  rw [if_neg (by omega : ¬n < 16), List.length_append]
  have h1 : jsNatToHexAux n (n / 16) ≠ [] := jsNatToHexAux_ne_nil n (n / 16) (by omega)
  have h2 : 1 ≤ (jsNatToHexAux n (n / 16)).length := by
    cases hh : jsNatToHexAux n (n / 16) with
    | nil => exact absurd hh h1
    | cons _ _ => simp
  simp only [List.length_singleton]
  omega

/-! ### Baggage header names and the baggage merge -/

theorem uberctx_data (k : String) :
    ("uberctx-" ++ k).data =
      'u' :: 'b' :: 'e' :: 'r' :: 'c' :: 't' :: 'x' :: '-' :: k.data := by
  rw [String.data_append]
  rfl

theorem uberctx_ne_trace (k : String) : "uberctx-" ++ k ≠ UBER_TRACE_ID_HEADER := by
  intro h
  have hd := congrArg String.data h
  rw [uberctx_data, show UBER_TRACE_ID_HEADER.data =
    ['u', 'b', 'e', 'r', '-', 't', 'r', 'a', 'c', 'e', '-', 'i', 'd'] from rfl] at hd
  simp only [List.cons.injEq] at hd
  exact absurd hd.2.2.2.2.1 (by decide)

theorem uberctx_inj {k1 k2 : String} (h : "uberctx-" ++ k1 = "uberctx-" ++ k2) :
    k1 = k2 := by
  have hd := congrArg String.data h
  rw [uberctx_data, uberctx_data] at hd
  simp only [List.cons.injEq, true_and] at hd
  exact string_data_inj hd

theorem uberctx_length (k : String) : ("uberctx-" ++ k).length = 8 + k.length := by
  show ("uberctx-" ++ k).data.length = 8 + k.data.length
  rw [uberctx_data]
  simp only [List.length_cons]
  omega

theorem string_ne_empty_data {k : String} (hk : k ≠ "") : k.data ≠ [] := by
  intro hnil
  exact hk (string_data_inj (by rw [hnil]))

theorem testBaggageRegex_uberctx {k : String} (hk : k ≠ "")
    (hlt : ∀ c ∈ k.data.take 1, isLineTerm c = false) :
    testBaggageRegex ("uberctx-" ++ k) = true := by
  unfold testBaggageRegex
  rw [decide_eq_true_eq]
  refine ⟨?_, ?_, ?_⟩
  · rw [uberctx_length]
    have hne := string_ne_empty_data hk
    have h1 : 1 ≤ k.length := by
      show 1 ≤ k.data.length
      cases hh : k.data with
      | nil => exact absurd hh hne
      | cons _ _ => simp
    omega
  · rw [String.data_append, List.take_left' (by decide)]
    decide
  · rw [String.data_append, List.drop_left' (by decide)]
    exact hlt

theorem baggageKeyOf_uberctx (k : String) : baggageKeyOf ("uberctx-" ++ k) = k := by
  unfold baggageKeyOf
  rw [String.data_append, List.drop_left' (by decide)]

theorem mergeBaggage_all_none : ∀ {l : List (String × Option String)},
    (∀ e ∈ l, e.2 = none) → ∀ cur : Baggage, mergeBaggage cur l = .ok cur
  | [], _, cur => rfl
  | (k, v) :: l, h, cur => by
    have hv : v = none := h (k, v) (by simp)
    subst hv
    show mergeBaggage cur l = .ok cur
    exact mergeBaggage_all_none (fun x hx => h x (by simp [hx])) cur

theorem mergeBaggage_ok : ∀ {l : List (String × Option String)},
    (∀ e ∈ l, ∀ v, e.2 = some v → decodeURIComponentJS v ≠ none) →
    ∀ cur : Baggage, ∃ b, mergeBaggage cur l = .ok b
  | [], _, cur => ⟨cur, rfl⟩
  | (k, v) :: l, h, cur => by
    cases v with
    | none =>
      show ∃ b, mergeBaggage cur l = .ok b
      exact mergeBaggage_ok (fun x hx => h x (by simp [hx])) cur
    | some s =>
      have hd : decodeURIComponentJS s ≠ none := h (k, some s) (by simp) s rfl
      show ∃ b, (match decodeURIComponentJS s with
        | none => (Except.error () : Except Unit Baggage)
        | some dv => mergeBaggage (setEntry cur k dv) l) = .ok b
      cases hds : decodeURIComponentJS s with
      | none => exact absurd hds hd
      | some dv =>
        exact mergeBaggage_ok (fun x hx => h x (by simp [hx])) (setEntry cur k dv)

theorem find?_name_unique {α : Type} : ∀ (l : List (String × α)) (k : String) (v : α),
    (k, v) ∈ l → (l.map Prod.fst).Nodup →
    l.find? (fun e => decide (e.1 = k)) = some (k, v)
  | [], k, v, hmem, _ => by simp at hmem
  | (k1, v1) :: l, k, v, hmem, hnd => by
    by_cases hk : k1 = k
    · subst hk
      rcases List.mem_cons.mp hmem with h | h
      · rw [List.find?_cons_of_pos _ (by simp)]
        exact congrArg some h.symm
      · exact absurd (List.mem_map.mpr ⟨(k1, v), h, rfl⟩) (List.nodup_cons.mp hnd).1
    · rw [List.find?_cons_of_neg _ (by simp [hk])]
      have hmem' : (k, v) ∈ l := by
        rcases List.mem_cons.mp hmem with h | h
        · exact absurd (congrArg Prod.fst h).symm hk
        · exact h
      exact find?_name_unique l k v hmem' (List.nodup_cons.mp hnd).2

theorem setEntry_fresh {acc : Baggage} {k : String}
    (h : ∀ a ∈ acc.entries, a.1 ≠ k) (v : String) :
    setEntry acc k v = ⟨acc.entries ++ [(k, v)]⟩ := by
  have hany : acc.entries.any (fun e => decide (e.1 = k)) = false := by
    rw [List.any_eq_false]
    intro e he
    simp only [decide_eq_true_eq]
    exact h e he
  unfold setEntry
  rw [if_neg (by rw [hany]; simp)]

theorem mergeBaggage_fresh : ∀ (l : List (String × String)) (acc : Baggage),
    (∀ e ∈ l, ∀ a ∈ acc.entries, a.1 ≠ e.1) → (l.map Prod.fst).Nodup →
    mergeBaggage acc (l.map (fun e => (e.1, some (encodeURIComponentJS e.2)))) =
      .ok ⟨acc.entries ++ l⟩
  | [], acc, _, _ => by
    show (Except.ok acc : Except Unit Baggage) = .ok ⟨acc.entries ++ []⟩
    rw [List.append_nil]
  | (k, v) :: l, acc, hdisj, hnd => by
    have hnd1 : k ∉ l.map Prod.fst := (List.nodup_cons.mp hnd).1
    have hnd2 : (l.map Prod.fst).Nodup := (List.nodup_cons.mp hnd).2
    have hdisj' : ∀ e ∈ l, ∀ a ∈ acc.entries ++ [(k, v)], a.1 ≠ e.1 := by
      intro e he a ha
      rw [List.mem_append] at ha
      rcases ha with ha | ha
      · exact hdisj e (by simp [he]) a ha
      · simp only [List.mem_singleton] at ha
        subst ha
        intro hke
        have hke' : k = e.1 := hke
        have hmem : e.1 ∈ l.map Prod.fst := List.mem_map.mpr ⟨e, he, rfl⟩
        rw [← hke'] at hmem
        exact hnd1 hmem
    show (match decodeURIComponentJS (encodeURIComponentJS v) with
      | none => (Except.error () : Except Unit Baggage)
      | some dv => mergeBaggage (setEntry acc k dv)
          (l.map (fun e : String × String =>
            (e.1, some (encodeURIComponentJS e.2))))) = _
    rw [decode_encode v]
    show mergeBaggage (setEntry acc k v)
      (l.map (fun e : String × String => (e.1, some (encodeURIComponentJS e.2)))) = _
    rw [setEntry_fresh (show ∀ a ∈ acc.entries, a.1 ≠ k from
        fun a ha => hdisj (k, v) (by simp) a ha) v,
      mergeBaggage_fresh l ⟨acc.entries ++ [(k, v)]⟩ hdisj' hnd2, List.append_assoc]
    rfl

/-! ### Deserialising a serialised span context -/

theorem isHexDigit_ne_pct {c : Char} (h : isHexDigit c = true) : c ≠ '%' := by
  intro hc
  subst hc
  exact absurd h (by decide)

theorem isHexDigit_ne_colon {c : Char} (h : isHexDigit c = true) : c ≠ ':' := by
  intro hc
  subst hc
  exact absurd h (by decide)

theorem splitColonStr_serialize {tid sid flagsStr : String}
    (htid : ∀ c ∈ tid.data, c ≠ ':') (hsid : ∀ c ∈ sid.data, c ≠ ':')
    (hf : ∀ c ∈ flagsStr.data, c ≠ ':') :
    splitColonStr (tid ++ ":" ++ sid ++ ":0:" ++ flagsStr) =
      [tid, sid, "0", flagsStr] := by
  unfold splitColonStr
  have hdata : (tid ++ ":" ++ sid ++ ":0:" ++ flagsStr).data =
      tid.data ++ ':' :: (sid.data ++ ':' :: (['0'] ++ ':' :: flagsStr.data)) := by
    simp only [String.data_append]
    simp [List.append_assoc]
  rw [hdata, splitColonList_append htid, splitColonList_append hsid,
    splitColonList_append (by decide), splitColonList_no_colon hf]
  simp only [List.map_cons, List.map_nil]

theorem deserialize_hex_core {tid sid ff : String}
    (htid : ∀ c ∈ tid.data, isHexDigit c = true)
    (hsid : ∀ c ∈ sid.data, isHexDigit c = true)
    (hffp : ∀ c ∈ ff.data, c ≠ '%') (hffc : ∀ c ∈ ff.data, c ≠ ':') :
    deserializeSpanContext (tid ++ ":" ++ sid ++ ":0:" ++ ff) =
      .ok (some { traceId := padStart tid 32 '0', spanId := sid, isRemote := true,
                  traceFlags := if matchTwoHexFlags ff then jsAnd1 (jsParseIntDec ff)
                                else 1 }) := by
  have hnp : ∀ c ∈ (tid ++ ":" ++ sid ++ ":0:" ++ ff).data, c ≠ '%' := by
    intro c hc
    simp only [String.data_append, List.mem_append] at hc
    rcases hc with (((hc | hc) | hc) | hc) | hc
    · exact isHexDigit_ne_pct (htid c hc)
    · simp only [List.mem_singleton] at hc
      subst hc
      decide
    · exact isHexDigit_ne_pct (hsid c hc)
    · simp only [List.mem_cons, List.not_mem_nil, or_false] at hc
      rcases hc with hc | hc | hc <;> subst hc <;> decide
    · exact hffp c hc
  rw [deserialize_decoded (decodeURIComponentJS_no_pct hnp),
    splitColonStr_serialize (fun c hc => isHexDigit_ne_colon (htid c hc))
      (fun c hc => isHexDigit_ne_colon (hsid c hc)) hffc,
    spanContextOfParts_four]

theorem jsAnd1_zero_or_one (o : Option Nat) : jsAnd1 o = 0 ∨ jsAnd1 o = 1 := by
  cases o with
  | none => exact .inl rfl
  | some n => exact Nat.mod_two_eq_zero_or_one n

theorem baggageHeadersOf_eq (b : Option Baggage) :
    baggageHeadersOf b = (b.getD ⟨[]⟩).entries.map
      (fun e => ("uberctx-" ++ e.1, encodeURIComponentJS e.2)) := by
  cases b <;> rfl

/-- After the trace-id step produced `newContext`, `extract` is the baggage
step applied to it. -/
theorem extract_ok_step {hdr : String} {ctx : Context} {carrier : Carrier}
    {newContext : Context}
    (hstep : (match headOrSelf (carrier.get hdr) with
      | some s =>
        match deserializeSpanContext s with
        | Except.error e => Except.error e
        | Except.ok (some sc) => Except.ok (setSpanContext ctx sc)
        | Except.ok none => Except.ok ctx
      | none => (Except.ok ctx : Except Unit Context)) = .ok newContext) :
    extract hdr ctx carrier =
      (if ((carrier.keys.filter testBaggageRegex).map
          (fun key => (baggageKeyOf key, headOrSelf (carrier.get key)))).length = 0 then
        .ok newContext
      else
        match mergeBaggage ((getBaggage ctx).getD ⟨[]⟩)
            ((carrier.keys.filter testBaggageRegex).map
              (fun key => (baggageKeyOf key, headOrSelf (carrier.get key)))) with
        | .error e => .error e
        | .ok cur => .ok (setBaggage newContext cur)) := by
  unfold extract
  rw [hstep]

/-! ### The claims -/

/-- C2: for every span context whose `traceId` is exactly 32 hexadecimal
characters, whose `spanId` is a hexadecimal identifier string, and whose
`traceFlags` is 0 or 1, decoding the string produced by encoding it yields a
span context equal in `traceId`, `spanId` and `traceFlags`, with `isRemote`
equal to true. -/
theorem c2_encode_decode_roundtrip (sc : SpanContext) (hlen : sc.traceId.length = 32)
    (htid : ∀ c ∈ sc.traceId.data, isHexDigit c = true)
    (hsid : ∀ c ∈ sc.spanId.data, isHexDigit c = true)
    (hf : sc.traceFlags = 0 ∨ sc.traceFlags = 1) :
    deserializeSpanContext (serializeSpanContext sc) =
      .ok (some { sc with isRemote := true }) := by
  have hser : serializeSpanContext sc =
      sc.traceId ++ ":" ++ sc.spanId ++ ":0:" ++ ("0" ++ jsNatToHex sc.traceFlags) := rfl
  have hpad : padStart sc.traceId 32 '0' = sc.traceId := by
    unfold padStart
    rw [if_pos (by omega)]
  rcases hf with hf | hf
  · have hff : ("0" ++ jsNatToHex sc.traceFlags : String) = "00" := by rw [hf]; decide
    rw [hser, hff, deserialize_hex_core htid hsid (by decide) (by decide), hpad]
    rw [show (if matchTwoHexFlags "00" then jsAnd1 (jsParseIntDec "00") else 1) = 0
      from by decide, ← hf]
  · have hff : ("0" ++ jsNatToHex sc.traceFlags : String) = "01" := by rw [hf]; decide
    rw [hser, hff, deserialize_hex_core htid hsid (by decide) (by decide), hpad]
    rw [show (if matchTwoHexFlags "01" then jsAnd1 (jsParseIntDec "01") else 1) = 1
      from by decide, ← hf]

/-- Witness for C2: the round trip at one concrete span context. -/
theorem c2_encode_decode_roundtrip_witness :
    deserializeSpanContext (serializeSpanContext
        ⟨"0af7651916cd43dd8448eb211c80319c", "b7ad6b7169203331", false, 1⟩) =
      .ok (some ⟨"0af7651916cd43dd8448eb211c80319c", "b7ad6b7169203331", true, 1⟩) :=
  c2_encode_decode_roundtrip
    ⟨"0af7651916cd43dd8448eb211c80319c", "b7ad6b7169203331", false, 1⟩
    (by decide) (by decide) (by decide) (.inr rfl)

/-- C3: for every 4-field input to decode, a flags field matching exactly
two hexadecimal digits case-insensitively yields
`traceFlags = parseInt(flags) & 1` (decimal radix, with `NaN & 1 = 0`),
always 0 or 1; a non-matching flags field yields `traceFlags = 1`; in both
cases a span context is produced, never a rejection. -/
theorem c3_flags_parsing (s d t sp p f : String)
    (hd : decodeURIComponentJS s = some d)
    (hsplit : splitColonStr d = [t, sp, p, f]) :
    ∃ sc, deserializeSpanContext s = .ok (some sc) ∧
      (matchTwoHexFlags f = true →
        sc.traceFlags = jsAnd1 (jsParseIntDec f) ∧
          (sc.traceFlags = 0 ∨ sc.traceFlags = 1)) ∧
      (matchTwoHexFlags f = false → sc.traceFlags = 1) := by
  refine ⟨{ traceId := padStart t 32 '0', spanId := sp, isRemote := true,
            traceFlags := if matchTwoHexFlags f then jsAnd1 (jsParseIntDec f)
                          else 1 }, ?_, ?_, ?_⟩
  · rw [deserialize_decoded hd, hsplit, spanContextOfParts_four]
  · intro hm
    constructor
    · show (if matchTwoHexFlags f then jsAnd1 (jsParseIntDec f) else 1) = _
      rw [if_pos hm]
    · show (if matchTwoHexFlags f then jsAnd1 (jsParseIntDec f) else 1) = 0 ∨
        (if matchTwoHexFlags f then jsAnd1 (jsParseIntDec f) else 1) = 1
      rw [if_pos hm]
      exact jsAnd1_zero_or_one (jsParseIntDec f)
  · intro hm
    show (if matchTwoHexFlags f then jsAnd1 (jsParseIntDec f) else 1) = 1
    rw [if_neg (by rw [hm]; simp)]

/-- Witness for C3 at the concrete input `ab:cd:0:1f`. -/
theorem c3_flags_parsing_witness :
    ∃ sc, deserializeSpanContext "ab:cd:0:1f" = .ok (some sc) ∧
      (matchTwoHexFlags "1f" = true →
        sc.traceFlags = jsAnd1 (jsParseIntDec "1f") ∧
          (sc.traceFlags = 0 ∨ sc.traceFlags = 1)) ∧
      (matchTwoHexFlags "1f" = false → sc.traceFlags = 1) :=
  c3_flags_parsing "ab:cd:0:1f" "ab:cd:0:1f" "ab" "cd" "0" "1f" (by decide) (by decide)

/-- C4: decode returns invalid (null) exactly when the percent-decoded input
splits on `:` into a number of fields different from 4 — the field-count
check is the only source of a null result — and the two given 3- and 5-field
examples are both rejected. -/
theorem c4_field_count_rejection :
    (∀ s : String, deserializeSpanContext s = .ok none ↔
      ∃ d, decodeURIComponentJS s = some d ∧ (splitColonStr d).length ≠ 4) ∧
    deserializeSpanContext "a:b:0" = .ok none ∧
    deserializeSpanContext "a:b:0:1:2" = .ok none := by
  refine ⟨?_, by rfl, by rfl⟩
  intro s
  constructor
  · intro h
    cases hd : decodeURIComponentJS s with
    | none =>
      rw [deserialize_throw hd] at h
      exact absurd h (by simp)
    | some d =>
      rw [deserialize_decoded hd] at h
      injection h with h'
      exact ⟨d, rfl, (spanContextOfParts_eq_none_iff _).mp h'⟩
  · rintro ⟨d, hd, hlen⟩
    rw [deserialize_decoded hd, (spanContextOfParts_eq_none_iff _).mpr hlen]

/-- Witness for C4's equivalence at the concrete 3-field input. -/
theorem c4_field_count_rejection_witness :
    deserializeSpanContext "a:b:0" = .ok none ↔
      ∃ d, decodeURIComponentJS "a:b:0" = some d ∧ (splitColonStr d).length ≠ 4 :=
  c4_field_count_rejection.1 "a:b:0"

/-- C8: every 4-field input accepted by decode yields a `traceId` that is
the first field left-padded with `0` characters to length 32 — purely
textual, with no hex validation — and a `spanId` that is the second field
verbatim; malformed identifiers are never a cause of rejection. -/
theorem c8_ids_unvalidated (s d t sp p f : String)
    (hd : decodeURIComponentJS s = some d)
    (hsplit : splitColonStr d = [t, sp, p, f]) :
    ∃ sc, deserializeSpanContext s = .ok (some sc) ∧
      sc.traceId = padStart t 32 '0' ∧ sc.spanId = sp ∧
      (t.length ≤ 32 → sc.traceId.data = List.replicate (32 - t.length) '0' ++ t.data) ∧
      (32 ≤ t.length → sc.traceId = t) := by
  refine ⟨{ traceId := padStart t 32 '0', spanId := sp, isRemote := true,
            traceFlags := if matchTwoHexFlags f then jsAnd1 (jsParseIntDec f)
                          else 1 }, ?_, rfl, rfl, ?_, ?_⟩
  · rw [deserialize_decoded hd, hsplit, spanContextOfParts_four]
  · intro hle
    show (padStart t 32 '0').data = _
    unfold padStart
    by_cases h32 : 32 ≤ t.length
    · rw [if_pos h32, show 32 - t.length = 0 from by omega]
      simp
    · rw [if_neg h32]
  · intro hge
    show padStart t 32 '0' = t
    unfold padStart
    rw [if_pos hge]

/-- Witness for C8 at a malformed, non-hex 4-field input. -/
theorem c8_ids_unvalidated_witness :
    ∃ sc, deserializeSpanContext "xyz!:@@@:p:qq" = .ok (some sc) ∧
      sc.traceId = padStart "xyz!" 32 '0' ∧ sc.spanId = "@@@" ∧
      (("xyz!" : String).length ≤ 32 →
        sc.traceId.data = List.replicate (32 - ("xyz!" : String).length) '0' ++
          ("xyz!" : String).data) ∧
      (32 ≤ ("xyz!" : String).length → sc.traceId = "xyz!") :=
  c8_ids_unvalidated "xyz!:@@@:p:qq" "xyz!:@@@:p:qq" "xyz!" "@@@" "p" "qq"
    (by decide) (by decide)

/-- C7: for every span context with non-empty identifiers, the encoded trace
header value is the four fields traceId, spanId, literal `0`, and a literal
`0` prefixed to the lowercase hex rendering of `traceFlags`, joined with
`:`; flags above `0xF` render with more than two digits rather than being
truncated; and no percent-encoding is applied — the value contains `:`,
a character percent-encoding can never output. -/
theorem c7_trace_header_format (sc : SpanContext)
    (_h1 : sc.traceId ≠ "") (_h2 : sc.spanId ≠ "") :
    serializeSpanContext sc =
      sc.traceId ++ ":" ++ sc.spanId ++ ":" ++ "0" ++ ":" ++
        ("0" ++ jsNatToHex sc.traceFlags) ∧
    (∀ c ∈ (jsNatToHex sc.traceFlags).data, isLowerHexDigit c = true) ∧
    (0xF < sc.traceFlags → 2 < ("0" ++ jsNatToHex sc.traceFlags).length) ∧
    ':' ∈ (serializeSpanContext sc).data ∧
    (∀ s : String, ':' ∉ (encodeURIComponentJS s).data) := by
  refine ⟨?_, jsNatToHex_lower sc.traceFlags, ?_, ?_, ?_⟩
  · apply string_data_inj
    unfold serializeSpanContext
    simp [String.data_append, List.append_assoc]
  · intro hgt
    show 2 < ("0" ++ jsNatToHex sc.traceFlags).data.length
    rw [String.data_append, List.length_append]
    have := jsNatToHex_len2 (n := sc.traceFlags) (by omega)
    have hl : (jsNatToHex sc.traceFlags).length = (jsNatToHex sc.traceFlags).data.length :=
      rfl
    rw [show ("0" : String).data = ['0'] from rfl]
    simp only [List.length_singleton]
    omega
  · unfold serializeSpanContext
    simp [String.data_append]
  · intro s hmem
    exact encodeURIComponentJS_no_colon s ':' hmem rfl

/-- Witness for C7 at a concrete span context with flags above 0xF. -/
theorem c7_trace_header_format_witness :
    serializeSpanContext ⟨"ab", "cd", false, 31⟩ =
      "ab" ++ ":" ++ "cd" ++ ":" ++ "0" ++ ":" ++ ("0" ++ jsNatToHex 31) ∧
    (∀ c ∈ (jsNatToHex 31).data, isLowerHexDigit c = true) ∧
    (0xF < 31 → 2 < ("0" ++ jsNatToHex 31).length) ∧
    ':' ∈ (serializeSpanContext ⟨"ab", "cd", false, 31⟩).data ∧
    (∀ s : String, ':' ∉ (encodeURIComponentJS s).data) :=
  c7_trace_header_format ⟨"ab", "cd", false, 31⟩ (by decide) (by decide)

/-- C5: when the context's tracing-suppressed flag is true, `inject` writes
no trace header and still writes exactly one baggage header per baggage
entry; and for every context, the baggage headers are written after any
trace header, dependent only on the context's baggage. -/
theorem c5_suppression :
    (∀ ctx : Context, isTracingSuppressed ctx = true →
      inject UBER_TRACE_ID_HEADER ctx =
        ((getBaggage ctx).getD ⟨[]⟩).entries.map
          (fun e => ("uberctx-" ++ e.1, encodeURIComponentJS e.2)) ∧
      ∀ v, (UBER_TRACE_ID_HEADER, v) ∉ inject UBER_TRACE_ID_HEADER ctx) ∧
    (∀ ctx : Context, ∃ pre,
      inject UBER_TRACE_ID_HEADER ctx =
        pre ++ ((getBaggage ctx).getD ⟨[]⟩).entries.map
          (fun e => ("uberctx-" ++ e.1, encodeURIComponentJS e.2))) := by
  constructor
  · intro ctx hsup
    have heq : inject UBER_TRACE_ID_HEADER ctx =
        ((getBaggage ctx).getD ⟨[]⟩).entries.map
          (fun e => ("uberctx-" ++ e.1, encodeURIComponentJS e.2)) := by
      unfold inject
      rw [baggageHeadersOf_eq]
      cases hsc : getSpanContext ctx with
      | none => rfl
      | some sc =>
        show (if isTracingSuppressed ctx = false then
            [(UBER_TRACE_ID_HEADER, serializeSpanContext sc)] else []) ++ _ = _
        rw [if_neg (by rw [hsup]; simp)]
        rfl
    refine ⟨heq, ?_⟩
    intro v hmem
    rw [heq] at hmem
    obtain ⟨e, _, habs⟩ := List.mem_map.mp hmem
    have : "uberctx-" ++ e.1 = UBER_TRACE_ID_HEADER := congrArg Prod.fst habs
    exact uberctx_ne_trace e.1 this
  · intro ctx
    refine ⟨(match getSpanContext ctx with
      | some sc =>
        if isTracingSuppressed ctx = false then
          [(UBER_TRACE_ID_HEADER, serializeSpanContext sc)]
        else []
      | none => []), ?_⟩
    unfold inject
    rw [baggageHeadersOf_eq]

/-- Witness for C5 at a suppressed context carrying both a span context and
baggage. -/
theorem c5_suppression_witness :
    inject UBER_TRACE_ID_HEADER
        ⟨0, ⟨some ⟨"t1", "s1", false, 1⟩, some ⟨[("k", "v w")]⟩, true⟩⟩ =
      [("uberctx-k", "v%20w")] := by
  have h := (c5_suppression.1
    ⟨0, ⟨some ⟨"t1", "s1", false, 1⟩, some ⟨[("k", "v w")]⟩, true⟩⟩ rfl).1
  rw [h]
  decide

/-- C6: whenever the trace header is absent (or present but decoding to
invalid) and no carrier key matches the baggage name pattern, `extract`
returns the identical input context — reference equality in the model —
and in particular never null. -/
theorem c6_identity_noop (ctx : Context) (carrier : Carrier)
    (htrace : headOrSelf (carrier.get UBER_TRACE_ID_HEADER) = none ∨
      ∃ s, headOrSelf (carrier.get UBER_TRACE_ID_HEADER) = some s ∧
        deserializeSpanContext s = .ok none)
    (hbag : ∀ k ∈ carrier.keys, testBaggageRegex k = false) :
    extract UBER_TRACE_ID_HEADER ctx carrier = .ok ctx := by
  have hfil : carrier.keys.filter testBaggageRegex = [] :=
    List.filter_eq_nil_iff.mpr (fun k hk => by rw [hbag k hk]; simp)
  have hstep : (match headOrSelf (carrier.get UBER_TRACE_ID_HEADER) with
      | some s =>
        match deserializeSpanContext s with
        | Except.error e => Except.error e
        | Except.ok (some sc) => Except.ok (setSpanContext ctx sc)
        | Except.ok none => Except.ok ctx
      | none => (Except.ok ctx : Except Unit Context)) = .ok ctx := by
    rcases htrace with h | ⟨s, hs, hds⟩
    · rw [h]
    · rw [hs]
      show (match deserializeSpanContext s with
        | Except.error e => Except.error e
        | Except.ok (some sc) => Except.ok (setSpanContext ctx sc)
        | Except.ok none => Except.ok ctx) = Except.ok ctx
      rw [hds]
  rw [extract_ok_step hstep, hfil]
  rfl

/-- Witness for C6 at a carrier with one unrelated key and no trace header. -/
theorem c6_identity_noop_witness :
    extract UBER_TRACE_ID_HEADER ⟨5, ⟨none, none, false⟩⟩
        ⟨["x-other"], fun _ => none⟩ =
      .ok ⟨5, ⟨none, none, false⟩⟩ :=
  c6_identity_noop ⟨5, ⟨none, none, false⟩⟩ ⟨["x-other"], fun _ => none⟩
    (.inl rfl) (by decide)

/-- C1: contrary to the claim, the core can throw.  JavaScript
`decodeURIComponent` throws `URIError` on a malformed percent-escape and
neither `deserializeSpanContext` nor `extract` catches it: decoding the
string `%` throws, and `extract` on a carrier whose trace header is `%`
throws instead of returning a context. -/
theorem c1_throws_on_malformed_escape :
    deserializeSpanContext "%" = .error () ∧
    extract UBER_TRACE_ID_HEADER ⟨0, ⟨none, none, false⟩⟩
        ⟨["uber-trace-id"],
          fun k => if k = "uber-trace-id" then some (.str "%") else none⟩ =
      .error () :=
  ⟨rfl, rfl⟩

/-- C10 fails as stated: with a carrier that lists the matching key
`uberctx-a` whose fetched value is `undefined`, and whose trace header is
the malformed string `%`, `extract` throws — returning no context at all —
rather than attaching a baggage value to a returned context. -/
theorem c10_counterexample :
    testBaggageRegex "uberctx-a" = true ∧
    headOrSelf ((⟨["uber-trace-id", "uberctx-a"],
        fun k => if k = "uber-trace-id" then some (.str "%") else none⟩ : Carrier).get
      "uberctx-a") = none ∧
    extract UBER_TRACE_ID_HEADER ⟨0, ⟨none, none, false⟩⟩
        ⟨["uber-trace-id", "uberctx-a"],
          fun k => if k = "uber-trace-id" then some (.str "%") else none⟩ =
      .error () :=
  ⟨by decide, rfl, rfl⟩

/-- C10 amended: if at least one carrier key matches the baggage pattern,
every matched key's fetched value is `undefined`, and the trace-header
value — when present as a string — percent-decodes without error, then
`extract` returns a context that carries a baggage value (the input's
existing baggage or a freshly created empty one) and that is not the
identical input context. -/
theorem c10_attaches_baggage (ctx : Context) (carrier : Carrier)
    (hmatch : ∃ k, k ∈ carrier.keys ∧ testBaggageRegex k = true)
    (hundef : ∀ k ∈ carrier.keys, testBaggageRegex k = true →
      headOrSelf (carrier.get k) = none)
    (htrace : ∀ s, headOrSelf (carrier.get UBER_TRACE_ID_HEADER) = some s →
      decodeURIComponentJS s ≠ none) :
    ∃ ctx2, extract UBER_TRACE_ID_HEADER ctx carrier = .ok ctx2 ∧
      getBaggage ctx2 = some ((getBaggage ctx).getD ⟨[]⟩) ∧
      ctx2 ≠ ctx ∧ ctx.ref < ctx2.ref := by
  obtain ⟨k, hk, htk⟩ := hmatch
  have hkf : k ∈ carrier.keys.filter testBaggageRegex := List.mem_filter.mpr ⟨hk, htk⟩
  have hlen : ¬(((carrier.keys.filter testBaggageRegex).map
      (fun key => (baggageKeyOf key, headOrSelf (carrier.get key)))).length = 0) := by
    intro h0
    rw [List.length_eq_zero] at h0
    exact absurd (List.mem_map_of_mem _ hkf) (by rw [h0]; simp)
  have hnone : ∀ e ∈ (carrier.keys.filter testBaggageRegex).map
      (fun key => (baggageKeyOf key, headOrSelf (carrier.get key))), e.2 = none := by
    intro e he
    obtain ⟨key, hkey, rfl⟩ := List.mem_map.mp he
    have hm := List.mem_filter.mp hkey
    exact hundef key hm.1 hm.2
  have hmerge := mergeBaggage_all_none hnone ((getBaggage ctx).getD ⟨[]⟩)
  have hstep : ∃ nc : Context, (nc = ctx ∨ ∃ sc, nc = setSpanContext ctx sc) ∧
      (match headOrSelf (carrier.get UBER_TRACE_ID_HEADER) with
        | some s =>
          match deserializeSpanContext s with
          | Except.error e => Except.error e
          | Except.ok (some sc) => Except.ok (setSpanContext ctx sc)
          | Except.ok none => Except.ok ctx
        | none => (Except.ok ctx : Except Unit Context)) = .ok nc := by
    cases hts : headOrSelf (carrier.get UBER_TRACE_ID_HEADER) with
    | none => exact ⟨ctx, .inl rfl, rfl⟩
    | some s =>
      cases hdec : decodeURIComponentJS s with
      | none => exact absurd hdec (htrace s hts)
      | some d =>
        show ∃ nc : Context, (nc = ctx ∨ ∃ sc, nc = setSpanContext ctx sc) ∧
          (match deserializeSpanContext s with
            | Except.error e => Except.error e
            | Except.ok (some sc) => Except.ok (setSpanContext ctx sc)
            | Except.ok none => Except.ok ctx) = .ok nc
        rw [deserialize_decoded hdec]
        cases spanContextOfParts (splitColonStr d) with
        | none => exact ⟨ctx, .inl rfl, rfl⟩
        | some sc => exact ⟨setSpanContext ctx sc, .inr ⟨sc, rfl⟩, rfl⟩
  obtain ⟨nc, hncor, hstep⟩ := hstep
  refine ⟨setBaggage nc ((getBaggage ctx).getD ⟨[]⟩), ?_, rfl, ?_, ?_⟩
  · rw [extract_ok_step hstep, if_neg hlen, hmerge]
  · intro he
    have hr := congrArg Context.ref he
    rcases hncor with rfl | ⟨sc, rfl⟩ <;> simp [setBaggage, setSpanContext] at hr <;> omega
  · rcases hncor with rfl | ⟨sc, rfl⟩ <;> simp [setBaggage, setSpanContext] <;> omega

/-- Witness for the amended C10 at a carrier listing one matching key with
an `undefined` value and no trace header. -/
theorem c10_attaches_baggage_witness :
    ∃ ctx2, extract UBER_TRACE_ID_HEADER ⟨0, ⟨none, none, false⟩⟩
        ⟨["uberctx-a"], fun _ => none⟩ = .ok ctx2 ∧
      getBaggage ctx2 =
        some ((getBaggage (⟨0, ⟨none, none, false⟩⟩ : Context)).getD ⟨[]⟩) ∧
      ctx2 ≠ ⟨0, ⟨none, none, false⟩⟩ ∧
      (⟨0, ⟨none, none, false⟩⟩ : Context).ref < ctx2.ref :=
  c10_attaches_baggage ⟨0, ⟨none, none, false⟩⟩ ⟨["uberctx-a"], fun _ => none⟩
    ⟨"uberctx-a", by decide, by decide⟩ (fun k _ _ => rfl) (fun s hs => nomatch hs)

/-- C9 fails for an empty baggage key, and for a key starting with a line
terminator: injecting the baggage entry ("", "v") produces the header
`uberctx-`, which `/^uberctx-(.+)/i` rejects (the group needs a
character), and injecting ("\n", "v") produces `uberctx-` + LF, which the
regex also rejects (`.` does not match a line terminator); in both cases
extracting the produced header loses the entry and returns the untouched
input context. -/
theorem c9_counterexample :
    (inject UBER_TRACE_ID_HEADER ⟨0, ⟨none, some ⟨[("", "v")]⟩, false⟩⟩ =
        [("uberctx-", "v")] ∧
      extract UBER_TRACE_ID_HEADER ⟨0, ⟨none, none, false⟩⟩
          (carrierOfList [("uberctx-", "v")]) =
        .ok ⟨0, ⟨none, none, false⟩⟩) ∧
    (inject UBER_TRACE_ID_HEADER ⟨0, ⟨none, some ⟨[("\n", "v")]⟩, false⟩⟩ =
        [("uberctx-\n", "v")] ∧
      extract UBER_TRACE_ID_HEADER ⟨0, ⟨none, none, false⟩⟩
          (carrierOfList [("uberctx-\n", "v")]) =
        .ok ⟨0, ⟨none, none, false⟩⟩) :=
  ⟨⟨rfl, rfl⟩, ⟨rfl, rfl⟩⟩

/-- C9 amended: injecting a baggage mapping with distinct keys, each
non-empty and not starting with a line terminator, emits one
`uberctx-{key}` header per entry, whose value is the percent-encoded entry
value, and extracting those headers reproduces exactly the original
entries with percent-decoded values. -/
theorem c9_baggage_roundtrip (entries : List (String × String))
    (hne : ∀ e ∈ entries, e.1 ≠ "" ∧ ∀ c ∈ e.1.data.take 1, isLineTerm c = false)
    (hnd : (entries.map Prod.fst).Nodup) :
    inject UBER_TRACE_ID_HEADER ⟨0, ⟨none, some ⟨entries⟩, false⟩⟩ =
      entries.map (fun e => ("uberctx-" ++ e.1, encodeURIComponentJS e.2)) ∧
    ∃ ctx2, extract UBER_TRACE_ID_HEADER ⟨0, ⟨none, none, false⟩⟩
        (carrierOfList (entries.map
          (fun e => ("uberctx-" ++ e.1, encodeURIComponentJS e.2)))) = .ok ctx2 ∧
      ((getBaggage ctx2).getD ⟨[]⟩).entries = entries := by
  refine ⟨rfl, ?_⟩
  by_cases hek : entries = []
  · subst hek
    exact ⟨⟨0, ⟨none, none, false⟩⟩, rfl, rfl⟩
  have hndnames : ((entries.map (fun e => ("uberctx-" ++ e.1,
      encodeURIComponentJS e.2))).map Prod.fst).Nodup := by
    have hmm : (entries.map (fun e => ("uberctx-" ++ e.1,
        encodeURIComponentJS e.2))).map Prod.fst =
        (entries.map Prod.fst).map (fun key => "uberctx-" ++ key) := by
      rw [List.map_map, List.map_map]
      apply List.map_congr_left
      intro e he
      rfl
    rw [hmm]
    exact hnd.map (fun a b h => uberctx_inj h)
  have hfind : (entries.map (fun e => ("uberctx-" ++ e.1,
      encodeURIComponentJS e.2))).find?
      (fun h => decide (h.1 = UBER_TRACE_ID_HEADER)) = none := by
    rw [List.find?_eq_none]
    intro x hx
    obtain ⟨e, _, rfl⟩ := List.mem_map.mp hx
    simp only [decide_eq_true_eq]
    exact uberctx_ne_trace e.1
  have hget : (carrierOfList (entries.map (fun e => ("uberctx-" ++ e.1,
      encodeURIComponentJS e.2)))).get UBER_TRACE_ID_HEADER = none := by
    show ((entries.map (fun e => ("uberctx-" ++ e.1, encodeURIComponentJS e.2))).find?
      (fun h => decide (h.1 = UBER_TRACE_ID_HEADER))).map
        (fun h => HeaderValue.str h.2) = none
    rw [hfind]
    rfl
  have hfil : ((carrierOfList (entries.map (fun e => ("uberctx-" ++ e.1,
      encodeURIComponentJS e.2)))).keys.filter testBaggageRegex) =
      (carrierOfList (entries.map (fun e => ("uberctx-" ++ e.1,
        encodeURIComponentJS e.2)))).keys := by
    rw [List.filter_eq_self]
    intro a ha
    have ha' : a ∈ (entries.map (fun e => ("uberctx-" ++ e.1,
        encodeURIComponentJS e.2))).map Prod.fst := ha
    obtain ⟨x, hx, rfl⟩ := List.mem_map.mp ha'
    obtain ⟨e, he, rfl⟩ := List.mem_map.mp hx
    exact testBaggageRegex_uberctx (hne e he).1 (hne e he).2
  have hbv : (((carrierOfList (entries.map (fun e => ("uberctx-" ++ e.1,
      encodeURIComponentJS e.2)))).keys.filter testBaggageRegex).map
      (fun key => (baggageKeyOf key, headOrSelf ((carrierOfList (entries.map
        (fun e => ("uberctx-" ++ e.1, encodeURIComponentJS e.2)))).get key)))) =
      entries.map (fun e => (e.1, some (encodeURIComponentJS e.2))) := by
    rw [hfil]
    show ((entries.map (fun e => ("uberctx-" ++ e.1,
        encodeURIComponentJS e.2))).map Prod.fst).map
      (fun key => (baggageKeyOf key, headOrSelf ((carrierOfList (entries.map
        (fun e => ("uberctx-" ++ e.1, encodeURIComponentJS e.2)))).get key))) = _
    rw [List.map_map, List.map_map]
    apply List.map_congr_left
    intro e he
    show (baggageKeyOf ("uberctx-" ++ e.1),
      headOrSelf (((entries.map (fun e => ("uberctx-" ++ e.1,
        encodeURIComponentJS e.2))).find?
        (fun h => decide (h.1 = "uberctx-" ++ e.1))).map
          (fun h => HeaderValue.str h.2))) = _
    rw [find?_name_unique (entries.map (fun e => ("uberctx-" ++ e.1,
        encodeURIComponentJS e.2))) ("uberctx-" ++ e.1) (encodeURIComponentJS e.2)
        (List.mem_map.mpr ⟨e, he, rfl⟩) hndnames,
      baggageKeyOf_uberctx]
    rfl
  have hlen : ¬((entries.map
      (fun e => (e.1, some (encodeURIComponentJS e.2)))).length = 0) := by
    rw [List.length_map, List.length_eq_zero]
    exact hek
  have hmerge : mergeBaggage
      ((getBaggage (⟨0, ⟨none, none, false⟩⟩ : Context)).getD ⟨[]⟩)
      (entries.map (fun e => (e.1, some (encodeURIComponentJS e.2)))) =
      .ok ⟨entries⟩ := by
    have h := mergeBaggage_fresh entries ⟨[]⟩ (by intro e he a ha; simp at ha) hnd
    simpa using h
  have hstep : (match headOrSelf ((carrierOfList (entries.map
      (fun e => ("uberctx-" ++ e.1, encodeURIComponentJS e.2)))).get
        UBER_TRACE_ID_HEADER) with
      | some s =>
        match deserializeSpanContext s with
        | Except.error e => Except.error e
        | Except.ok (some sc) =>
          Except.ok (setSpanContext ⟨0, ⟨none, none, false⟩⟩ sc)
        | Except.ok none => Except.ok ⟨0, ⟨none, none, false⟩⟩
      | none => (Except.ok ⟨0, ⟨none, none, false⟩⟩ : Except Unit Context)) =
      .ok ⟨0, ⟨none, none, false⟩⟩ := by
    rw [hget]
    rfl
  refine ⟨setBaggage ⟨0, ⟨none, none, false⟩⟩ ⟨entries⟩, ?_, rfl⟩
  rw [extract_ok_step hstep, hbv, if_neg hlen, hmerge]

/-- Witness for the amended C9 at the spec's example baggage
{"key1": "value1", "key2": "value 2/$"}. -/
theorem c9_baggage_roundtrip_witness :
    inject UBER_TRACE_ID_HEADER
        ⟨0, ⟨none, some ⟨[("key1", "value1"), ("key2", "value 2/$")]⟩, false⟩⟩ =
      [("uberctx-key1", "value1"), ("uberctx-key2", "value%202%2F%24")] ∧
    ∃ ctx2, extract UBER_TRACE_ID_HEADER ⟨0, ⟨none, none, false⟩⟩
        (carrierOfList [("uberctx-key1", "value1"),
          ("uberctx-key2", "value%202%2F%24")]) = .ok ctx2 ∧
      ((getBaggage ctx2).getD ⟨[]⟩).entries =
        [("key1", "value1"), ("key2", "value 2/$")] := by
  have h := c9_baggage_roundtrip [("key1", "value1"), ("key2", "value 2/$")]
    (by decide) (by decide)
  have hl : [("key1", "value1"), ("key2", "value 2/$")].map
      (fun e => ("uberctx-" ++ e.1, encodeURIComponentJS e.2)) =
      [("uberctx-key1", "value1"), ("uberctx-key2", "value%202%2F%24")] := by decide
  refine ⟨h.1.trans hl, ?_⟩
  obtain ⟨ctx2, hex, hb⟩ := h.2
  rw [hl] at hex
  exact ⟨ctx2, hex, hb⟩

end Jaeger
